import Mathlib

/-!
Verification of the AG-TUNE poetry generation engine (`src/App.jsx` and
`src/UniversalLinguisticEngine.js`) against its natural-language specification.

The JavaScript source is embedded shallowly:
* JS numbers are modelled as real numbers (`ℝ`) where the code performs
  analytic computation (FFT, power iteration, TD updates), and as rationals
  (`ℚ`) in the checkpoint data model where only copying/coercion happens;
* the places where IEEE non-finite values (NaN/Infinity) are observable are
  modelled explicitly (`JsNum` for power iteration, `Option ℚ` for
  checkpoint fields, with `none` playing the role of a non-finite value);
* `Math.random()` draws are modelled as an explicit entropy stream `ℕ → ℝ`
  passed to the embedded function, indexed in the order the draws happen;
* JS exceptions are modelled with `Except`/an error component, and the
  mutation order of `this` is made explicit by threading the engine record.
-/

namespace LaPoet

/-! ## Floyd cycle detector (`FloydCycleDetector.detect`, App.jsx 340-364) -/

/-- Result of `FloydCycleDetector.detect`.  The JS function returns either the
bare boolean `false` (for sequences shorter than 4) or an object
`{detected, length}`; the two shapes are kept apart. -/
inductive FloydResult where
  | primFalse : FloydResult
  | obj (detected : Bool) (length : ℕ) : FloydResult
  deriving DecidableEq, Repr

namespace FloydCycleDetector

/-- The inner `while` loop of `detect` that computes `cycleLen`: starting from
`cycleLen = 1` and `i = tortoise + 1`, it increments both while `i < hare` and
`tokens[i] === tokens[tortoise + (i - tortoise) % (hare - tortoise)]`. -/
def cycleLenLoop (tokens : List String) (tortoise hare : ℕ) (i cycleLen : ℕ) : ℕ :=
  if h : i < hare then
    if tokens.getD i "" = tokens.getD (tortoise + (i - tortoise) % (hare - tortoise)) "" then
      cycleLenLoop tokens tortoise hare (i + 1) (cycleLen + 1)
    else cycleLen
  else cycleLen
termination_by hare - i

/-- The outer `while (hare < tokens.length)` loop of `detect`. -/
def detectLoop (tokens : List String) (tortoise hare : ℕ) : FloydResult :=
  if h : hare < tokens.length then
    if tokens.getD tortoise "" = tokens.getD hare "" then
      .obj true (cycleLenLoop tokens tortoise hare (tortoise + 1) 1)
    else
      detectLoop tokens (tortoise + 1) (hare + 2)
  else .obj false 0
termination_by tokens.length - hare

/-- `FloydCycleDetector.detect(sequence, maxLookback = 15)`.  The elements of
`sequence` are strings, for which the JS `t.token || t` projection is the
identity. -/
def detect (sequence : List String) (maxLookback : ℕ := 15) : FloydResult :=
  if sequence.length < 4 then .primFalse
  else
    let tokens := sequence.drop (sequence.length - maxLookback)
    detectLoop tokens 1 2

end FloydCycleDetector

/-! ## CYK parser (`CYKParser.parse`, App.jsx 371-419) -/

/-- A right-hand side in the flat grammar handed to `CYKParser`: terminal
productions are plain strings, binary rules are two-element arrays
(cf. `getFlatGrammar` in UniversalLinguisticEngine.js). -/
inductive Production where
  | str (s : String) : Production
  | arr (l : List String) : Production
  deriving DecidableEq, Repr

/-- A grammar as consumed by `CYKParser`: an object mapping non-terminal names
to lists of productions, modelled as an association list in key order. -/
abbrev Grammar := List (String × List Production)

namespace CYKParser

/-- `productions.includes(tokens[i])`: JS `===` comparison of a candidate
production against a token string; an array production never equals a string. -/
def jsIncludes (prods : List Production) (tok : String) : Bool :=
  prods.any fun p => match p with
    | .str s => s = tok
    | .arr _ => false

/-- The JS test `prod.length === 2` followed by `const [left, right] = prod`:
a two-element array destructures to its elements, and a two-character string
destructures to its two characters. -/
def prodAsPair (p : Production) : Option (String × String) :=
  match p with
  | .arr l => if l.length = 2 then some (l.getD 0 "", l.getD 1 "") else none
  | .str s =>
    match s.toList with
    | [c1, c2] => some (String.mk [c1], String.mk [c2])
    | _ => none

/-- Diagonal seeding of the CYK table: non-terminals whose production list
contains the token as a terminal. -/
def termCell (grammar : Grammar) (tok : String) : List String :=
  (grammar.filter fun g => jsIncludes g.2 tok).map Prod.fst

/-- `table[i][j]` of the CYK dynamic program, expressed as a recursion on the
span width `j - i`: the JS triple loop fills cells in increasing span order,
and each cell only reads strictly narrower spans. -/
def cell (grammar : Grammar) (tokens : List String) (i j : ℕ) : List String :=
  if j ≤ i then termCell grammar (tokens.getD i "")
  else
    (grammar.filter fun g => g.2.any fun p =>
      match prodAsPair p with
      | some (left, right) =>
        (List.range' i (j - i)).attach.any fun k =>
          decide (left ∈ cell grammar tokens i k.1) &&
          decide (right ∈ cell grammar tokens (k.1 + 1) j)
      | none => false).map Prod.fst
termination_by j - i
decreasing_by
  · have hk := List.mem_range'_1.mp k.2
    omega
  · have hk := List.mem_range'_1.mp k.2
    omega

/-- `CYKParser.parse(tokens)`: `n === 0` returns `true`; otherwise accept iff
the start symbol `S` is in `table[0][n-1]`. -/
def parse (grammar : Grammar) (tokens : List String) : Bool :=
  if tokens.length = 0 then true
  else "S" ∈ cell grammar tokens 0 (tokens.length - 1)

end CYKParser

/-- The example grammar of spec §8: `S→NP VP, NP→Det N, VP→V NP,
Det→{the}, N→{cat}, V→{chased}`. -/
def sampleGrammar : Grammar :=
  [ ("S", [.arr ["NP", "VP"]])
  , ("NP", [.arr ["Det", "N"]])
  , ("VP", [.arr ["V", "NP"]])
  , ("Det", [.str "the"])
  , ("N", [.str "cat"])
  , ("V", [.str "chased"]) ]

/-! ### Theorems about the CYK parser (claim C1) -/

/-- C1 counterexample: on the empty token sequence `CYKParser.parse` returns
`true` — the input is accepted, not rejected, for the concrete grammar of
spec §8 (the `if (n === 0) return true` branch fires before the grammar is
even consulted). -/
theorem cyk_parse_empty_accepted :
    CYKParser.parse sampleGrammar [] = true := by
  rfl

/-- C1 (amended): for every grammar, `CYKParser.parse` on the empty token
sequence returns `true`; zero-length input is accepted vacuously. -/
theorem cyk_parse_empty_accepts_all (grammar : Grammar) :
    CYKParser.parse grammar [] = true := by
  simp [CYKParser.parse]

/-! ### Theorems about the cycle detector (claim C9) -/

/-- Helper for C9: the inner `cycleLen` loop always runs to `i = hare`,
because for `tortoise < i < hare` the compared indices coincide
(`(i - tortoise) % (hare - tortoise) = i - tortoise`), so it adds
`hare - i` to the running count. -/
theorem cycleLenLoop_adds (fuel : ℕ) :
    ∀ (tokens : List String) (tortoise hare i cl : ℕ),
      hare - i = fuel → tortoise < i → i ≤ hare →
      FloydCycleDetector.cycleLenLoop tokens tortoise hare i cl = cl + (hare - i) := by
  induction fuel with
  | zero =>
    intro tokens t h i cl hfuel hti hih
    rw [FloydCycleDetector.cycleLenLoop]
    have : ¬ i < h := by omega
    simp [this, hfuel]
  | succ n ih =>
    intro tokens t h i cl hfuel hti hih
    have hlt : i < h := by omega
    have hmod : (i - t) % (h - t) = i - t := Nat.mod_eq_of_lt (by omega)
    have hidx : t + (i - t) % (h - t) = i := by omega
    rw [FloydCycleDetector.cycleLenLoop]
    rw [dif_pos hlt, hidx, if_pos rfl]
    rw [ih tokens t h (i + 1) (cl + 1) (by omega) (by omega) (by omega)]
    omega

/-- C9: `detect(['love','death','love','death','love','death'])` reports
`{detected: true, length: 2}`, `detect(['the','quick','brown','fox','jumps'])`
reports `{detected: false}` (with length 0), and at the first collision the
reported length is exactly `hare - tortoise` (the function is pure, hence
the results hold on every call). -/
theorem floyd_detect_results :
    FloydCycleDetector.detect ["love", "death", "love", "death", "love", "death"]
        = .obj true 2 ∧
    FloydCycleDetector.detect ["the", "quick", "brown", "fox", "jumps"]
        = .obj false 0 ∧
    ∀ (tokens : List String) (tortoise hare : ℕ), tortoise < hare →
      FloydCycleDetector.cycleLenLoop tokens tortoise hare (tortoise + 1) 1
        = hare - tortoise := by
  refine ⟨?_, ?_, ?_⟩
  · simp [FloydCycleDetector.detect, FloydCycleDetector.detectLoop,
      FloydCycleDetector.cycleLenLoop]
  · simp [FloydCycleDetector.detect, FloydCycleDetector.detectLoop,
      FloydCycleDetector.cycleLenLoop]
  intro tokens t h hth
  rw [cycleLenLoop_adds (h - (t + 1)) tokens t h (t + 1) 1 rfl (by omega) (by omega)]
  omega

/-- C9 witness: the collision-length part of `floyd_detect_results` applied at
`tortoise = 2`, `hare = 4` on a concrete token list. -/
theorem floyd_detect_results_witness :
    FloydCycleDetector.cycleLenLoop ["a", "b", "a", "b", "a"] 2 4 3 1 = 4 - 2 :=
  floyd_detect_results.2.2 ["a", "b", "a", "b", "a"] 2 4 (by decide)

/-! ## FFT meter analyzer (`FFTMeterAnalyzer`, App.jsx 426-468)

The recursive `_fft` deinterleaves its input (`signal.filter(i % 2 === 0)` /
`i % 2 === 1`) and combines the halves with explicitly computed
cosine/sine twiddle factors; complex numbers, represented in the source as
`[re, im]` pairs, are modelled as `ℂ`. -/

/-- `signal.filter((_, i) => i % 2 === 0)`: the even-indexed elements. -/
def evens {α : Type} : List α → List α
  | [] => []
  | [a] => [a]
  | a :: _ :: rest => a :: evens rest

/-- `signal.filter((_, i) => i % 2 === 1)`: the odd-indexed elements. -/
def odds {α : Type} : List α → List α
  | [] => []
  | [_] => []
  | _ :: b :: rest => b :: odds rest

lemma evens_length {α : Type} : ∀ (l : List α), (evens l).length = (l.length + 1) / 2
  | [] => by simp [evens]
  | [_] => by simp [evens]
  | _ :: _ :: rest => by
    simp [evens, evens_length rest]
    omega

lemma odds_length {α : Type} : ∀ (l : List α), (odds l).length = l.length / 2
  | [] => by simp [odds]
  | [_] => by simp [odds]
  | _ :: _ :: rest => by
    simp [odds, odds_length rest]
    omega

/-- The twiddle angle `-2 * Math.PI * k / n` of the combine step. -/
noncomputable def twAngle (n k : ℕ) : ℝ := -(2 * Real.pi * k) / n

/-- The twiddle product of the combine step:
`t = [cos·o.re - sin·o.im, cos·o.im + sin·o.re]`. -/
noncomputable def jsTwiddleMul (θ : ℝ) (z : ℂ) : ℂ :=
  ⟨Real.cos θ * z.re - Real.sin θ * z.im, Real.cos θ * z.im + Real.sin θ * z.re⟩

/-- `FFTMeterAnalyzer._fft`: length-1 input returns `[[signal[0], 0]]`,
otherwise recurse on the even/odd halves and combine,
`result[k] = even[k] + t`, `result[k + n/2] = even[k] - t`.
(The source diverges on empty input; it is never called on one, and the
empty case here returns `[]`.) -/
noncomputable def fft : List ℝ → List ℂ
  | [] => []
  | [x] => [⟨x, 0⟩]
  | a :: b :: rest =>
    let e := fft (evens (a :: b :: rest))
    let o := fft (odds (a :: b :: rest))
    let n := (a :: b :: rest).length
    ((List.range (n / 2)).map fun k =>
      e.getD k 0 + jsTwiddleMul (twAngle n k) (o.getD k 0)) ++
    ((List.range (n / 2)).map fun k =>
      e.getD k 0 - jsTwiddleMul (twAngle n k) (o.getD k 0))
termination_by l => l.length
decreasing_by
  · simp [evens_length]
    omega
  · simp [odds_length]
    omega

/-- `Math.sqrt(c[0]*c[0] + c[1]*c[1])`, the magnitude of one FFT bin. -/
noncomputable def jsMagnitude (z : ℂ) : ℝ := Real.sqrt (z.re * z.re + z.im * z.im)

/-- `Math.max(...magnitudes)`.  (On the empty list JS yields `-Infinity`;
every call site passes a non-empty list, and the empty case returns 0.) -/
noncomputable def jsMaxList : List ℝ → ℝ
  | [] => 0
  | a :: rest => rest.foldl max a

open Classical in
/-- `Array.prototype.indexOf`: index of the first `===`-equal element,
`-1` when absent. -/
noncomputable def jsIndexOf : List ℝ → ℝ → ℤ
  | [], _ => -1
  | a :: rest, x =>
    if a = x then 0
    else
      let r := jsIndexOf rest x
      if r = -1 then -1 else r + 1

namespace FFTMeterAnalyzer

/-- `FFTMeterAnalyzer.analyzeStressPattern(stresses, targetPattern = [0, 1])`:
pad to the next power of two, take the magnitudes of the first `n/2` FFT
bins, locate the dominant bin with `indexOf(max)`, and score
`1 - Math.min(|dominantFreq - targetPattern.length| / n, 1)`. -/
noncomputable def analyzeStressPattern (stresses : List ℝ)
    (targetPattern : List ℝ := [0, 1]) : ℝ :=
  if stresses.length < targetPattern.length * 2 then 0
  else
    let n : ℕ := 2 ^ Nat.clog 2 stresses.length
    let padded := stresses ++ List.replicate (n - stresses.length) 0
    let magnitudes := ((fft padded).take (n / 2)).map jsMagnitude
    let dominantFreq := jsIndexOf magnitudes (jsMaxList magnitudes)
    1 - min (|(dominantFreq : ℝ) - (targetPattern.length : ℝ)| / (n : ℝ)) 1

end FFTMeterAnalyzer

open Classical in
/-- Modelled from the spec (refinement-side definition, deliberately written
from the spec's words, not from the source): "the fraction of adjacent
positions that differ (the alternation score)". -/
noncomputable def specAlternationScore (stresses : List ℝ) : ℝ :=
  (((stresses.zip stresses.tail).countP fun p => decide (p.1 ≠ p.2) : ℕ) : ℝ) /
    ((stresses.length : ℝ) - 1)

end LaPoet

namespace LaPoet

lemma twAngle_zero (n : ℕ) : twAngle n 0 = 0 := by simp [twAngle]

lemma jsTwiddleMul_zero_angle (z : ℂ) : jsTwiddleMul 0 z = z := by
  simp [jsTwiddleMul]

lemma jsTwiddleMul_zero_right (t : ℝ) : jsTwiddleMul t 0 = 0 := by
  simp [jsTwiddleMul, Complex.ext_iff]

lemma twAngle_four_one : twAngle 4 1 = -(Real.pi / 2) := by
  simp [twAngle]; ring

lemma twAngle_eight_one : twAngle 8 1 = -(Real.pi / 4) := by
  simp [twAngle]; ring

lemma twAngle_eight_two : twAngle 8 2 = -(Real.pi / 2) := by
  simp [twAngle]; ring

lemma twAngle_eight_three : twAngle 8 3 = -(3 * Real.pi / 4) := by
  simp [twAngle]; ring

lemma jsTwiddleMul_neg_pi_div_two (z : ℂ) :
    jsTwiddleMul (-(Real.pi / 2)) z = ⟨z.im, -z.re⟩ := by
  simp [jsTwiddleMul]

lemma cos_neg_pi_div_four : Real.cos (-(Real.pi / 4)) = Real.sqrt 2 / 2 := by
  rw [Real.cos_neg, Real.cos_pi_div_four]

lemma sin_neg_pi_div_four : Real.sin (-(Real.pi / 4)) = -(Real.sqrt 2 / 2) := by
  rw [Real.sin_neg, Real.sin_pi_div_four]

lemma cos_neg_three_pi_div_four :
    Real.cos (-(3 * Real.pi / 4)) = -(Real.sqrt 2 / 2) := by
  rw [Real.cos_neg, show 3 * Real.pi / 4 = Real.pi - Real.pi / 4 by ring,
    Real.cos_pi_sub, Real.cos_pi_div_four]

lemma sin_neg_three_pi_div_four :
    Real.sin (-(3 * Real.pi / 4)) = -(Real.sqrt 2 / 2) := by
  rw [Real.sin_neg, show 3 * Real.pi / 4 = Real.pi - Real.pi / 4 by ring,
    Real.sin_pi_sub, Real.sin_pi_div_four]

lemma jsTwiddleMul_neg_pi_div_four (z : ℂ) :
    jsTwiddleMul (-(Real.pi / 4)) z =
      ⟨Real.sqrt 2 / 2 * (z.re + z.im), Real.sqrt 2 / 2 * (z.im - z.re)⟩ := by
  unfold jsTwiddleMul
  rw [cos_neg_pi_div_four, sin_neg_pi_div_four]
  simp only [Complex.mk.injEq]
  constructor <;> ring

lemma jsTwiddleMul_neg_three_pi_div_four (z : ℂ) :
    jsTwiddleMul (-(3 * Real.pi / 4)) z =
      ⟨Real.sqrt 2 / 2 * (z.im - z.re), -(Real.sqrt 2 / 2 * (z.re + z.im))⟩ := by
  unfold jsTwiddleMul
  rw [cos_neg_three_pi_div_four, sin_neg_three_pi_div_four]
  simp only [Complex.mk.injEq]
  constructor <;> ring

lemma fft_pair (a b : ℝ) : fft [a, b] = [⟨a + b, 0⟩, ⟨a - b, 0⟩] := by
  rw [fft]
  norm_num [evens, odds, fft, twAngle_zero, jsTwiddleMul_zero_angle, List.range_succ,
    Complex.ext_iff]

lemma fft_four (a b c d : ℝ) :
    fft [a, b, c, d] =
      [⟨a + c + (b + d), 0⟩, ⟨a - c, -(b - d)⟩, ⟨a + c - (b + d), 0⟩, ⟨a - c, b - d⟩] := by
  rw [fft]
  norm_num [evens, odds, fft_pair, twAngle_zero, twAngle_four_one,
    jsTwiddleMul_zero_angle, jsTwiddleMul_neg_pi_div_two, List.range_succ,
    Complex.ext_iff]

lemma fft_zeros_eight :
    fft [0, 0, 0, 0, 0, 0, 0, 0] = [0, 0, 0, 0, 0, 0, 0, 0] := by
  rw [fft]
  norm_num [evens, odds, fft_four, twAngle_zero, twAngle_eight_one,
    twAngle_eight_two, twAngle_eight_three, jsTwiddleMul_zero_angle,
    jsTwiddleMul_zero_right, List.range_succ, Complex.ext_iff,
    jsTwiddleMul_neg_pi_div_two, jsTwiddleMul_neg_pi_div_four,
    jsTwiddleMul_neg_three_pi_div_four]

lemma fft_ones_eight :
    fft [1, 1, 1, 1, 1, 1, 1, 1] =
      [⟨8, 0⟩, 0, 0, 0, 0, 0, 0, 0] := by
  rw [fft]
  norm_num [evens, odds, fft_four, twAngle_zero, twAngle_eight_one,
    twAngle_eight_two, twAngle_eight_three, jsTwiddleMul_zero_angle,
    jsTwiddleMul_zero_right, List.range_succ, Complex.ext_iff,
    jsTwiddleMul_neg_pi_div_two, jsTwiddleMul_neg_pi_div_four,
    jsTwiddleMul_neg_three_pi_div_four]

end LaPoet

namespace LaPoet

lemma fft_alt_odd_half :
    fft [1, 1, 1, 1, 1, 0, 0, 0] =
      [⟨5, 0⟩, ⟨0, -(1 + Real.sqrt 2)⟩, ⟨1, 0⟩, ⟨0, 1 - Real.sqrt 2⟩,
       ⟨1, 0⟩, ⟨0, Real.sqrt 2 - 1⟩, ⟨1, 0⟩, ⟨0, 1 + Real.sqrt 2⟩] := by
  rw [fft]
  norm_num [evens, odds, fft_four, twAngle_zero, twAngle_eight_one,
    twAngle_eight_two, twAngle_eight_three, jsTwiddleMul_zero_angle,
    jsTwiddleMul_zero_right, List.range_succ, Complex.ext_iff,
    jsTwiddleMul_neg_pi_div_two, jsTwiddleMul_neg_pi_div_four,
    jsTwiddleMul_neg_three_pi_div_four]
  constructor
  · ring
  · constructor <;> ring

end LaPoet

namespace LaPoet

lemma fft_chaos_even_half :
    fft [1, 0, 1, 0, 1, 0, 0, 0] =
      [⟨3, 0⟩, ⟨0, -1⟩, ⟨1, 0⟩, ⟨0, 1⟩, ⟨3, 0⟩, ⟨0, -1⟩, ⟨1, 0⟩, ⟨0, 1⟩] := by
  rw [fft]
  norm_num [evens, odds, fft_four, twAngle_zero, twAngle_eight_one,
    twAngle_eight_two, twAngle_eight_three, jsTwiddleMul_zero_angle,
    jsTwiddleMul_zero_right, List.range_succ, Complex.ext_iff,
    jsTwiddleMul_neg_pi_div_two, jsTwiddleMul_neg_pi_div_four,
    jsTwiddleMul_neg_three_pi_div_four]

lemma fft_chaos_odd_half :
    fft [1, 1, 1, 0, 0, 0, 0, 0] =
      [⟨3, 0⟩, ⟨1 + Real.sqrt 2 / 2, -(1 + Real.sqrt 2 / 2)⟩, ⟨0, -1⟩,
       ⟨1 - Real.sqrt 2 / 2, 1 - Real.sqrt 2 / 2⟩, ⟨1, 0⟩,
       ⟨1 - Real.sqrt 2 / 2, -(1 - Real.sqrt 2 / 2)⟩, ⟨0, 1⟩,
       ⟨1 + Real.sqrt 2 / 2, 1 + Real.sqrt 2 / 2⟩] := by
  rw [fft]
  norm_num [evens, odds, fft_four, twAngle_zero, twAngle_eight_one,
    twAngle_eight_two, twAngle_eight_three, jsTwiddleMul_zero_angle,
    jsTwiddleMul_zero_right, List.range_succ, Complex.ext_iff,
    jsTwiddleMul_neg_pi_div_two, jsTwiddleMul_neg_pi_div_four,
    jsTwiddleMul_neg_three_pi_div_four]
  exact ⟨by ring, by ring, by ring⟩

end LaPoet

namespace LaPoet

lemma fft_take_half (a b : ℝ) (rest : List ℝ) :
    (fft (a :: b :: rest)).take ((a :: b :: rest).length / 2) =
      (List.range ((a :: b :: rest).length / 2)).map fun k =>
        (fft (evens (a :: b :: rest))).getD k 0 +
          jsTwiddleMul (twAngle (a :: b :: rest).length k)
            ((fft (odds (a :: b :: rest))).getD k 0) := by
  rw [fft]
  exact List.take_left' (by simp)

lemma jsMagnitude_eq_abs (z : ℂ) : jsMagnitude z = Complex.abs z := by
  rw [Complex.abs_apply, Complex.normSq_apply]
  rfl

lemma abs_jsTwiddleMul (t : ℝ) (z : ℂ) :
    Complex.abs (jsTwiddleMul t z) = Complex.abs z := by
  have hmul : jsTwiddleMul t z = (⟨Real.cos t, Real.sin t⟩ : ℂ) * z := by
    simp only [jsTwiddleMul, Complex.ext_iff, Complex.mul_re, Complex.mul_im]
    constructor <;> ring
  have h1 : Complex.abs ⟨Real.cos t, Real.sin t⟩ = 1 := by
    have hc : Real.cos t * Real.cos t + Real.sin t * Real.sin t = 1 := by
      have := Real.sin_sq_add_cos_sq t
      nlinarith
    simp [Complex.abs_apply, Complex.normSq_apply, hc]
  rw [hmul, map_mul, h1, one_mul]

lemma jsMagnitude_bound (t : ℝ) (E O : ℂ) :
    jsMagnitude (E + jsTwiddleMul t O) ≤ |E.re| + |E.im| + (|O.re| + |O.im|) := by
  rw [jsMagnitude_eq_abs]
  calc Complex.abs (E + jsTwiddleMul t O)
      ≤ Complex.abs E + Complex.abs (jsTwiddleMul t O) := Complex.abs.add_le _ _
    _ = Complex.abs E + Complex.abs O := by rw [abs_jsTwiddleMul]
    _ ≤ |E.re| + |E.im| + (|O.re| + |O.im|) :=
        add_le_add (Complex.abs_le_abs_re_add_abs_im E) (Complex.abs_le_abs_re_add_abs_im O)

lemma jsMagnitude_real (x : ℝ) : jsMagnitude ⟨x, 0⟩ = |x| := by
  rw [jsMagnitude]
  simp [← sq, Real.sqrt_sq_eq_abs]

lemma foldl_max_const (a : ℝ) : ∀ (l : List ℝ), (∀ x ∈ l, x ≤ a) → l.foldl max a = a
  | [], _ => rfl
  | x :: xs, h => by
    have hx : max a x = a := max_eq_left (h x (by simp))
    simp only [List.foldl_cons, hx]
    exact foldl_max_const a xs fun y hy => h y (by simp [hy])

lemma mk_add_mk (a b c d : ℝ) : (⟨a, b⟩ : ℂ) + ⟨c, d⟩ = ⟨a + c, b + d⟩ := by
  simp [Complex.ext_iff]

lemma jsTwiddleMul_mk_zero (t : ℝ) : jsTwiddleMul t ⟨0, 0⟩ = ⟨0, 0⟩ := by
  simp [jsTwiddleMul]

lemma dominant_is_head (m : ℝ) (rest : List ℝ) (h : ∀ x ∈ rest, x ≤ m) :
    jsIndexOf (m :: rest) (jsMaxList (m :: rest)) = 0 := by
  have hmax : jsMaxList (m :: rest) = m := foldl_max_const m rest h
  rw [hmax]
  simp [jsIndexOf]

lemma clog_two_eight : Nat.clog 2 8 = 3 := by
  rw [Nat.clog_of_two_le (by norm_num) (by norm_num)]
  norm_num
  rw [Nat.clog_of_two_le (by norm_num) (by norm_num)]
  norm_num
  rw [Nat.clog_of_two_le (by norm_num) (by norm_num)]
  norm_num

lemma clog_two_ten : Nat.clog 2 10 = 4 := by
  rw [Nat.clog_of_two_le (by norm_num) (by norm_num)]
  norm_num
  rw [Nat.clog_of_two_le (by norm_num) (by norm_num)]
  norm_num
  rw [Nat.clog_of_two_le (by norm_num) (by norm_num)]
  norm_num
  rw [Nat.clog_of_two_le (by norm_num) (by norm_num)]
  norm_num

lemma clog_two_four : Nat.clog 2 4 = 2 := by
  rw [Nat.clog_of_two_le (by norm_num) (by norm_num)]
  norm_num
  rw [Nat.clog_of_two_le (by norm_num) (by norm_num)]
  norm_num

lemma score_flat :
    FFTMeterAnalyzer.analyzeStressPattern [1, 1, 1, 1, 1, 1, 1, 1] = 3 / 4 := by
  have h := fft_take_half 1 1 [1, 1, 1, 1, 1, 1]
  norm_num [evens, odds, fft_four, List.range_succ, twAngle_zero,
    jsTwiddleMul_zero_angle, jsTwiddleMul_zero_right,
    List.getD_cons_zero, List.getD_cons_succ, Complex.ext_iff] at h
  rw [FFTMeterAnalyzer.analyzeStressPattern]
  norm_num [clog_two_eight, h, mk_add_mk, jsTwiddleMul_mk_zero, jsMagnitude_real]
  rw [dominant_is_head 8 [0, 0, 0] (by norm_num)]
  norm_num

end LaPoet

namespace LaPoet

lemma jsMagnitude_tw_bound (t : ℝ) (O : ℂ) :
    jsMagnitude (jsTwiddleMul t O) ≤ |O.re| + |O.im| := by
  rw [jsMagnitude_eq_abs, abs_jsTwiddleMul]
  exact Complex.abs_le_abs_re_add_abs_im O

lemma sqrt_two_le_two : Real.sqrt 2 ≤ 2 := by
  nlinarith [Real.sq_sqrt (by norm_num : (0:ℝ) ≤ 2), Real.sqrt_nonneg 2]

lemma one_le_sqrt_two : 1 ≤ Real.sqrt 2 := by
  nlinarith [Real.sq_sqrt (by norm_num : (0:ℝ) ≤ 2), Real.sqrt_nonneg 2]

lemma sqrt_two_le_three_halves : Real.sqrt 2 ≤ 3 / 2 := by
  nlinarith [Real.sq_sqrt (by norm_num : (0:ℝ) ≤ 2), Real.sqrt_nonneg 2]

lemma score_alt :
    FFTMeterAnalyzer.analyzeStressPattern [0, 1, 0, 1, 0, 1, 0, 1, 0, 1] = 7 / 8 := by
  have h := fft_take_half 0 1 [0, 1, 0, 1, 0, 1, 0, 1, 0, 0, 0, 0, 0, 0]
  norm_num [evens, odds, fft_zeros_eight, fft_alt_odd_half, List.range_succ,
    twAngle_zero, jsTwiddleMul_zero_angle,
    List.getD_cons_zero, List.getD_cons_succ] at h
  rw [FFTMeterAnalyzer.analyzeStressPattern]
  norm_num [clog_two_ten, List.replicate_succ]
  rw [← List.map_take, h]
  norm_num [jsMagnitude_real]
  rw [dominant_is_head 5 _ ?_]
  · norm_num
  · have h2 := sqrt_two_le_three_halves
    have h0 := Real.sqrt_nonneg 2
    intro x hx
    simp only [List.mem_cons, List.not_mem_nil, or_false] at hx
    rcases hx with h1 | h1 | h1 | h1 | h1 | h1 | h1 <;>
      (subst h1
       refine le_trans (jsMagnitude_tw_bound _ _) ?_
       dsimp only
       refine le_trans (add_le_add ?_ ?_) (by norm_num : (5:ℝ)/2 + 5/2 ≤ 5) <;>
         exact abs_le.mpr ⟨by nlinarith, by nlinarith⟩)

end LaPoet

namespace LaPoet

lemma score_chaos :
    FFTMeterAnalyzer.analyzeStressPattern [1, 1, 0, 1, 1, 1, 0, 0, 1, 0] = 7 / 8 := by
  have h := fft_take_half 1 1 [0, 1, 1, 1, 0, 0, 1, 0, 0, 0, 0, 0, 0, 0]
  norm_num [evens, odds, fft_chaos_even_half, fft_chaos_odd_half, List.range_succ,
    twAngle_zero, jsTwiddleMul_zero_angle, mk_add_mk,
    List.getD_cons_zero, List.getD_cons_succ] at h
  rw [FFTMeterAnalyzer.analyzeStressPattern]
  norm_num [clog_two_ten, List.replicate_succ]
  rw [← List.map_take, h]
  norm_num [jsMagnitude_real]
  rw [dominant_is_head 6 _ ?_]
  · norm_num
  · have hs : (0:ℝ) ≤ Real.sqrt 2 / 2 := by positivity
    have h32 := sqrt_two_le_three_halves
    have ha : |1 + Real.sqrt 2 / 2| = 1 + Real.sqrt 2 / 2 := abs_of_nonneg (by positivity)
    have hb : |-(Real.sqrt 2 / 2) + -1| = 1 + Real.sqrt 2 / 2 := by
      rw [show (-(Real.sqrt 2 / 2) + -1 : ℝ) = -(1 + Real.sqrt 2 / 2) by ring, abs_neg, ha]
    have hc : |1 - Real.sqrt 2 / 2| = 1 - Real.sqrt 2 / 2 := abs_of_nonneg (by nlinarith)
    have hd : |Real.sqrt 2 / 2 - 1| = 1 - Real.sqrt 2 / 2 := by rw [abs_sub_comm, hc]
    intro x hx
    simp only [List.mem_cons, List.not_mem_nil, or_false] at hx
    rcases hx with h1 | h1 | h1 | h1 | h1 | h1 | h1 <;>
      (subst h1
       refine le_trans (jsMagnitude_bound _ _ _) ?_
       dsimp only
       norm_num [ha, hb, hc, hd]
       try nlinarith [h32, hs])

end LaPoet

namespace LaPoet

lemma score_allequal : FFTMeterAnalyzer.analyzeStressPattern [1, 1, 1, 1] = 1 / 2 := by
  have h := fft_take_half 1 1 [1, 1]
  norm_num [evens, odds, fft_pair, List.range_succ, twAngle_zero,
    jsTwiddleMul_zero_angle, jsTwiddleMul_mk_zero, mk_add_mk,
    List.getD_cons_zero, List.getD_cons_succ] at h
  rw [FFTMeterAnalyzer.analyzeStressPattern]
  norm_num [clog_two_four]
  rw [← List.map_take, h]
  norm_num [jsMagnitude_real]
  rw [dominant_is_head 4 _ (by norm_num)]
  norm_num

lemma spec_alternation_allequal : specAlternationScore [1, 1, 1, 1] = 0 := by
  rw [specAlternationScore]
  have hz : ([(1:ℝ), 1, 1, 1].zip [(1:ℝ), 1, 1, 1].tail) = [(1, 1), (1, 1), (1, 1)] := by
    simp [List.zip]
  rw [hz]
  have hc : List.countP (fun p => decide (p.1 ≠ p.2)) [((1:ℝ), (1:ℝ)), (1, 1), (1, 1)] = 0 := by
    refine List.countP_eq_zero.mpr ?_
    intro a ha
    fin_cases ha <;> simp
  rw [hc]
  norm_num

/-- C2 counterexample: on the all-equal stress pattern `[1,1,1,1]` the code
returns `1/2`, not the alternation score (which is `0`): the implementation
does not combine an alternation score with a spectral ratio, and its
all-equal behaviour differs from the spec's description. -/
theorem analyze_allequal_not_alternation :
    FFTMeterAnalyzer.analyzeStressPattern [1, 1, 1, 1] = 1 / 2 ∧
    specAlternationScore [1, 1, 1, 1] = 0 ∧
    FFTMeterAnalyzer.analyzeStressPattern [1, 1, 1, 1] ≠
      specAlternationScore [1, 1, 1, 1] := by
  refine ⟨score_allequal, spec_alternation_allequal, ?_⟩
  rw [score_allequal, spec_alternation_allequal]
  norm_num

/-- C2 (amended): `analyzeStressPattern` always returns a value in `[0, 1]`
(computed as `1 - min(|dominantFreq - targetLen| / n, 1)` from the padded FFT
magnitudes, or `0` for short inputs); no division by zero occurs since the
final score uses total real operations only. -/
theorem analyze_score_in_unit_interval (stresses targetPattern : List ℝ) :
    0 ≤ FFTMeterAnalyzer.analyzeStressPattern stresses targetPattern ∧
    FFTMeterAnalyzer.analyzeStressPattern stresses targetPattern ≤ 1 := by
  have key : ∀ x : ℝ, 0 ≤ x → 0 ≤ 1 - min x 1 ∧ 1 - min x 1 ≤ 1 := by
    intro x hx
    have h1 : min x 1 ≤ 1 := min_le_right x 1
    have h2 : 0 ≤ min x 1 := le_min hx zero_le_one
    constructor <;> linarith
  rw [FFTMeterAnalyzer.analyzeStressPattern]
  split
  · norm_num
  · constructor
    · exact (key _ (by positivity)).1
    · exact (key _ (by positivity)).2

/-- C5: the perfectly alternating pattern scores strictly higher than the
flat pattern (`7/8 > 3/4`), and the flat pattern scores no higher than the
chaotic pattern (`3/4 ≤ 7/8`). -/
theorem rhythm_discrimination :
    FFTMeterAnalyzer.analyzeStressPattern [1, 1, 1, 1, 1, 1, 1, 1] <
      FFTMeterAnalyzer.analyzeStressPattern [0, 1, 0, 1, 0, 1, 0, 1, 0, 1] ∧
    FFTMeterAnalyzer.analyzeStressPattern [1, 1, 1, 1, 1, 1, 1, 1] ≤
      FFTMeterAnalyzer.analyzeStressPattern [1, 1, 0, 1, 1, 1, 0, 0, 1, 0] := by
  rw [score_flat, score_alt, score_chaos]
  norm_num

end LaPoet

namespace LaPoet

/-! ## Kernel PCA power iteration (`KernelPCA._eigenDecomposition`, App.jsx 86-130)

JS numbers in the power iteration are modelled by `JsNum`: a finite real, or
the single non-finite marker `nonfin` standing for IEEE NaN/Infinity.  The
only operation that can introduce a non-finite value here is division by
zero (`norm === 0` in the normalization step); non-finite values then
propagate through subsequent arithmetic exactly as NaN does. -/

/-- A JS number: finite value or non-finite (NaN/Infinity). -/
inductive JsNum where
  | fin (x : ℝ) : JsNum
  | nonfin : JsNum

namespace JsNum

noncomputable def add : JsNum → JsNum → JsNum
  | fin x, fin y => fin (x + y)
  | _, _ => nonfin

noncomputable def sub : JsNum → JsNum → JsNum
  | fin x, fin y => fin (x - y)
  | _, _ => nonfin

noncomputable def mul : JsNum → JsNum → JsNum
  | fin x, fin y => fin (x * y)
  | _, _ => nonfin

open Classical in
/-- JS division: division by zero (0/0 or x/0) is non-finite. -/
noncomputable def div : JsNum → JsNum → JsNum
  | fin x, fin y => if y = 0 then nonfin else fin (x / y)
  | _, _ => nonfin

open Classical in
/-- `Math.sqrt`: negative input gives NaN. -/
noncomputable def sqrt : JsNum → JsNum
  | fin x => if x < 0 then nonfin else fin (Real.sqrt x)
  | nonfin => nonfin

/-- `Math.abs`. -/
noncomputable def jsAbs : JsNum → JsNum
  | fin x => fin |x|
  | nonfin => nonfin

end JsNum

namespace KernelPCA

/-- The matrix–vector product of one power-iteration step:
`newV[i] = Σ_j matrix[i][j] * v[j]`, accumulating from `0`. -/
noncomputable def matVec (matrix : List (List JsNum)) (n : ℕ) (v : List JsNum) :
    List JsNum :=
  (List.range n).map fun i =>
    (List.range n).foldl
      (fun (s : JsNum) j =>
        s.add (((matrix.getD i []).getD j (.fin 0)).mul (v.getD j (.fin 0))))
      (.fin 0)

/-- `v.reduce((sum, vi) => sum + vi * vi, 0)`. -/
noncomputable def sumSq (v : List JsNum) : JsNum :=
  v.foldl (fun (s : JsNum) x => s.add (x.mul x)) (.fin 0)

/-- One iteration of the `for (iter = 0; iter < 50; ...)` loop: multiply by
the matrix, then normalize by the Euclidean norm — unconditionally, with no
zero-norm guard. -/
noncomputable def iterStep (matrix : List (List JsNum)) (n : ℕ) (v : List JsNum) :
    List JsNum :=
  let newV := matVec matrix n v
  let norm := (sumSq newV).sqrt
  newV.map fun x => x.div norm

/-- Gram–Schmidt deflation of `v` against one previous eigenvector. -/
noncomputable def gsAgainst (v e : List JsNum) : List JsNum :=
  let dot := (List.range v.length).foldl
    (fun (s : JsNum) idx => s.add ((v.getD idx (.fin 0)).mul (e.getD idx (.fin 0))))
    (.fin 0)
  (List.range v.length).map fun idx =>
    (v.getD idx (.fin 0)).sub (dot.mul (e.getD idx (.fin 0)))

/-- `eigenvalue += v[i] * matrix[i][j] * v[j]` over all `i, j`. -/
noncomputable def eigenvalueOf (matrix : List (List JsNum)) (n : ℕ) (v : List JsNum) :
    JsNum :=
  (List.range n).foldl
    (fun (s : JsNum) i => (List.range n).foldl
      (fun (s2 : JsNum) j =>
        s2.add (((v.getD i (.fin 0)).mul ((matrix.getD i []).getD j (.fin 0))).mul
          (v.getD j (.fin 0))))
      s)
    (.fin 0)

/-- `KernelPCA._eigenDecomposition(matrix)`: for each of the first
`min(nComponents, n)` components, draw a fresh initial vector from the
`Math.random()` entropy stream (`rand`, consumed in call order), deflate it
against the previous eigenvectors, run 50 matrix-multiply-normalize
iterations, and record eigenvector and `Math.abs(eigenvalue)`. -/
noncomputable def eigenDecomposition (matrix : List (List JsNum)) (nComponents : ℕ)
    (rand : ℕ → ℝ) : List (List JsNum) × List JsNum :=
  let n := matrix.length
  (List.range (min nComponents n)).foldl
    (fun acc k =>
      let v0 : List JsNum := (List.range n).map fun i => .fin (rand (k * n + i) - 0.5)
      let v1 := acc.1.foldl gsAgainst v0
      let v := (iterStep matrix n)^[50] v1
      (acc.1 ++ [v], acc.2 ++ [(eigenvalueOf matrix n v).jsAbs]))
    ([], [])

end KernelPCA

end LaPoet

namespace LaPoet

lemma iterStep_one (x : ℝ) :
    KernelPCA.iterStep [[JsNum.fin 1]] 1 [JsNum.fin x] =
      if x = 0 then [JsNum.nonfin] else [JsNum.fin (x / |x|)] := by
  rw [KernelPCA.iterStep]
  simp only [KernelPCA.matVec, KernelPCA.sumSq, List.range_succ, List.range_zero]
  norm_num [JsNum.add, JsNum.mul, JsNum.sqrt, JsNum.div]
  rw [if_neg (by nlinarith : ¬ x * x < 0), Real.sqrt_mul_self_eq_abs]
  by_cases hx : x = 0
  · simp [hx]
  · simp [JsNum.div, hx]

lemma iterStep_one_pos (x : ℝ) (hx : 0 < x) :
    KernelPCA.iterStep [[JsNum.fin 1]] 1 [JsNum.fin x] = [JsNum.fin 1] := by
  rw [iterStep_one, if_neg (by linarith), abs_of_pos hx, div_self (by linarith)]

lemma iterStep_one_neg (x : ℝ) (hx : x < 0) :
    KernelPCA.iterStep [[JsNum.fin 1]] 1 [JsNum.fin x] = [JsNum.fin (-1)] := by
  rw [iterStep_one, if_neg (by linarith), abs_of_neg hx]
  congr 1
  rw [div_neg, div_self (by linarith)]

lemma iterate_one_pos :
    (KernelPCA.iterStep [[JsNum.fin 1]] 1)^[50] [JsNum.fin (1 - 0.5)] = [JsNum.fin 1] := by
  rw [show (50 : ℕ) = 49 + 1 from rfl, Function.iterate_succ_apply]
  rw [show (1 - 0.5 : ℝ) = 0.5 by norm_num, iterStep_one_pos 0.5 (by norm_num)]
  exact Function.iterate_fixed (iterStep_one_pos 1 one_pos) 49

lemma iterate_one_neg :
    (KernelPCA.iterStep [[JsNum.fin 1]] 1)^[50] [JsNum.fin (0 - 0.5)] = [JsNum.fin (-1)] := by
  rw [show (50 : ℕ) = 49 + 1 from rfl, Function.iterate_succ_apply]
  rw [show (0 - 0.5 : ℝ) = -0.5 by norm_num, iterStep_one_neg (-0.5) (by norm_num)]
  exact Function.iterate_fixed (iterStep_one_neg (-1) (by norm_num)) 49

lemma eigenvalueOf_one_one :
    KernelPCA.eigenvalueOf [[JsNum.fin 1]] 1 [JsNum.fin 1] = JsNum.fin 1 := by
  simp [KernelPCA.eigenvalueOf, List.range_succ, JsNum.add, JsNum.mul]

lemma eigenvalueOf_one_negone :
    KernelPCA.eigenvalueOf [[JsNum.fin 1]] 1 [JsNum.fin (-1)] = JsNum.fin 1 := by
  simp [KernelPCA.eigenvalueOf, List.range_succ, JsNum.add, JsNum.mul]

end LaPoet

namespace LaPoet

lemma eigenDecomposition_single (matrix : List (List JsNum)) (nc : ℕ) (r : ℕ → ℝ)
    (h : matrix.length = 1) (hnc : 1 ≤ nc) :
    KernelPCA.eigenDecomposition matrix nc r =
      ([(KernelPCA.iterStep matrix 1)^[50] [JsNum.fin (r 0 - 0.5)]],
       [(KernelPCA.eigenvalueOf matrix 1
          ((KernelPCA.iterStep matrix 1)^[50] [JsNum.fin (r 0 - 0.5)])).jsAbs]) := by
  rw [KernelPCA.eigenDecomposition, h]
  have hmin : min nc 1 = 1 := by omega
  rw [hmin]
  simp only [List.range_succ, List.range_zero, List.nil_append, List.foldl_cons,
    List.foldl_nil, List.map_cons, List.map_nil, Nat.zero_mul, Nat.zero_add,
    Nat.mul_zero, Nat.add_zero]

lemma eigenDecomposition_one_pos (r : ℕ → ℝ) (hr : r 0 = 1) :
    KernelPCA.eigenDecomposition [[JsNum.fin 1]] 12 r = ([[JsNum.fin 1]], [JsNum.fin 1]) := by
  rw [eigenDecomposition_single [[JsNum.fin 1]] 12 r (by simp) (by norm_num), hr,
    iterate_one_pos, eigenvalueOf_one_one]
  simp [JsNum.jsAbs]

lemma eigenDecomposition_one_neg (r : ℕ → ℝ) (hr : r 0 = 0) :
    KernelPCA.eigenDecomposition [[JsNum.fin 1]] 12 r =
      ([[JsNum.fin (-1)]], [JsNum.fin 1]) := by
  rw [eigenDecomposition_single [[JsNum.fin 1]] 12 r (by simp) (by norm_num), hr,
    iterate_one_neg, eigenvalueOf_one_negone]
  simp [JsNum.jsAbs]

lemma iterStep_zero_fin (x : ℝ) :
    KernelPCA.iterStep [[JsNum.fin 0]] 1 [JsNum.fin x] = [JsNum.nonfin] := by
  rw [KernelPCA.iterStep]
  simp only [KernelPCA.matVec, KernelPCA.sumSq, List.range_succ, List.range_zero]
  norm_num [JsNum.add, JsNum.mul, JsNum.sqrt, JsNum.div, Real.sqrt_zero]

lemma iterStep_zero_nonfin :
    KernelPCA.iterStep [[JsNum.fin 0]] 1 [JsNum.nonfin] = [JsNum.nonfin] := by
  rw [KernelPCA.iterStep]
  simp only [KernelPCA.matVec, KernelPCA.sumSq, List.range_succ, List.range_zero]
  norm_num [JsNum.add, JsNum.mul, JsNum.sqrt, JsNum.div]

lemma iterate_zero_matrix (x : ℝ) :
    (KernelPCA.iterStep [[JsNum.fin 0]] 1)^[50] [JsNum.fin x] = [JsNum.nonfin] := by
  rw [show (50 : ℕ) = 49 + 1 from rfl, Function.iterate_succ_apply, iterStep_zero_fin]
  exact Function.iterate_fixed iterStep_zero_nonfin 49

lemma eigenvalueOf_zero_nonfin :
    KernelPCA.eigenvalueOf [[JsNum.fin 0]] 1 [JsNum.nonfin] = JsNum.nonfin := by
  simp [KernelPCA.eigenvalueOf, List.range_succ, JsNum.add, JsNum.mul]

lemma eigenDecomposition_zero_matrix (r : ℕ → ℝ) :
    KernelPCA.eigenDecomposition [[JsNum.fin 0]] 12 r =
      ([[JsNum.nonfin]], [JsNum.nonfin]) := by
  rw [eigenDecomposition_single [[JsNum.fin 0]] 12 r (by simp) (by norm_num),
    iterate_zero_matrix, eigenvalueOf_zero_nonfin]
  simp [JsNum.jsAbs]

end LaPoet

namespace LaPoet

/-! ### Theorems about seeding and zero-norm guarding (claims C3, C6) -/

/-- C3 counterexample: two runs on the same matrix with the same seeded
stream (which `_eigenDecomposition` never consults) but different
`Math.random()` entropy produce different eigenvectors — the initialization
`Math.random() - 0.5` (App.jsx line 94) is an entropy source outside the
explicitly seeded generator, so generation is not a function of corpus,
hyperparameters and seed alone. -/
theorem eigen_depends_on_math_random :
    KernelPCA.eigenDecomposition [[JsNum.fin 1]] 12 (fun _ => 1) ≠
      KernelPCA.eigenDecomposition [[JsNum.fin 1]] 12 (fun _ => 0) := by
  rw [eigenDecomposition_one_pos (fun _ => 1) rfl, eigenDecomposition_one_neg (fun _ => 0) rfl]
  intro h
  have h1 := congrArg Prod.fst h
  simp only [List.cons.injEq, and_true] at h1
  injection h1 with h2
  norm_num at h2

/-- C3 (amended): the eigen-iteration is deterministic only once the
`Math.random()` entropy stream is fixed in addition to corpus,
hyperparameters and seed: with the first draw pinned to 1 the decomposition
of the 1×1 matrix `[[1]]` is fully determined. -/
theorem eigen_deterministic_given_entropy (r : ℕ → ℝ) (hr : r 0 = 1) :
    KernelPCA.eigenDecomposition [[JsNum.fin 1]] 12 r =
      ([[JsNum.fin 1]], [JsNum.fin 1]) :=
  eigenDecomposition_one_pos r hr

/-- C3 witness: `eigen_deterministic_given_entropy` at the constant-1
entropy stream. -/
theorem eigen_deterministic_given_entropy_witness :
    KernelPCA.eigenDecomposition [[JsNum.fin 1]] 12 (fun _ => 1) =
      ([[JsNum.fin 1]], [JsNum.fin 1]) :=
  eigen_deterministic_given_entropy (fun _ => 1) rfl

/-- C6 counterexample: on the 1×1 zero matrix the first multiply produces the
zero vector, whose norm is zero; the normalization `v.map(vi => vi / norm)`
(App.jsx lines 113-114) divides anyway — there is no early exit — and the
component's eigenvector and eigenvalue come out non-finite (NaN). -/
theorem eigen_zero_norm_nonfinite :
    KernelPCA.eigenDecomposition [[JsNum.fin 0]] 12 (fun _ => 0) =
      ([[JsNum.nonfin]], [JsNum.nonfin]) :=
  eigenDecomposition_zero_matrix (fun _ => 0)

/-- C6 (amended): the power iteration has no zero-norm guard: whenever the
iterate's norm is zero the normalization step divides by zero, and the
non-finite values persist to the returned eigenpair — for the zero matrix
this happens for every `Math.random()` initialization. -/
theorem eigen_zero_norm_unguarded (r : ℕ → ℝ) :
    KernelPCA.eigenDecomposition [[JsNum.fin 0]] 12 r =
      ([[JsNum.nonfin]], [JsNum.nonfin]) :=
  eigenDecomposition_zero_matrix r

end LaPoet

namespace LaPoet

/-! ## TD(λ) value estimator (`TDValueEstimator`, App.jsx 180-255)

`PoeticState` is the typed shape of the state objects built by `_getState`;
a JS `null` state is `none`.  For real-modelled numbers the JS `x || 0`
fallbacks in `_extractFeatures` are the identity (`0 || 0 === 0`), and the
`!state.eSpaceTraj` guard is never taken for a typed state whose trajectory
field is an (always truthy) array. -/

structure PoeticState where
  eSpaceTraj : List (List ℝ)
  meterScore : ℝ
  rhymeConsistency : ℝ
  novelty : ℝ
  lineCount : ℝ
  themeCoherence : ℝ

structure TDValueEstimator where
  weights : List ℝ
  alpha : ℝ
  gamma : ℝ
  lambda : ℝ
  eligibility : List ℝ

namespace TDValueEstimator

/-- One step of the `eSpaceTraj.reduce` accumulator:
`vec.forEach((v, i) => acc[i] = (acc[i] || 0) + v)` — positions `i` beyond
`acc.length` extend the array, positions beyond `vec.length` are unchanged. -/
def accAdd (acc vec : List ℝ) : List ℝ :=
  (List.range (max acc.length vec.length)).map fun i =>
    if i < vec.length then acc.getD i 0 + vec.getD i 0 else acc.getD i 0

/-- `TDValueEstimator._extractFeatures(state)`: mean of the emotional
trajectory (accumulated into an `Array(state.eSpaceTraj[0]?.length || 12)`),
then the five scalar features, padded/truncated to `weights.length`. -/
noncomputable def extractFeatures (est : TDValueEstimator) (state : Option PoeticState) : List ℝ :=
  match state with
  | none => List.replicate est.weights.length 0
  | some s =>
    let hd := (s.eSpaceTraj.headD []).length
    let initLen := if hd = 0 then 12 else hd
    let eSpaceCenter := s.eSpaceTraj.foldl accAdd (List.replicate initLen 0)
    let denom : ℝ := if s.eSpaceTraj.length = 0 then 1 else (s.eSpaceTraj.length : ℝ)
    let features := eSpaceCenter.map (fun v => v / denom) ++
      [s.meterScore, s.rhymeConsistency, s.novelty, s.lineCount / 100, s.themeCoherence]
    (features ++ List.replicate (est.weights.length - features.length) 0).take
      est.weights.length

/-- `features.reduce((sum, f, i) => sum + f * this.weights[i], 0)`. -/
def dotJS (features weights : List ℝ) : ℝ :=
  (List.range features.length).foldl
    (fun s i => s + features.getD i 0 * weights.getD i 0) 0

/-- `TDValueEstimator.estimate(state)`. -/
noncomputable def estimate (est : TDValueEstimator) (state : Option PoeticState) : ℝ :=
  dotJS (extractFeatures est state) est.weights

/-- `TDValueEstimator.update(state, reward, nextState, done)`: compute the TD
error from the pre-update weights, update the eligibility traces, update the
weights with the fresh traces, and finally zero the traces when `done`. -/
noncomputable def update (est : TDValueEstimator) (state : Option PoeticState) (reward : ℝ)
    (nextState : Option PoeticState) (done : Bool) : TDValueEstimator :=
  let phi := extractFeatures est state
  let phiNext := if done then List.replicate est.weights.length 0
    else extractFeatures est nextState
  let v := dotJS phi est.weights
  let vNext := dotJS phiNext est.weights
  let tdError := reward + (if done then 0 else est.gamma * vNext) - v
  let elig := (List.range est.eligibility.length).map fun i =>
    est.gamma * est.lambda * est.eligibility.getD i 0 + phi.getD i 0
  let w := (List.range est.weights.length).map fun i =>
    est.weights.getD i 0 + est.alpha * tdError * elig.getD i 0
  { est with
    weights := w
    eligibility := if done then List.replicate elig.length 0 else elig }

end TDValueEstimator

/-- Spec-side dot product `w · φ`. -/
def vdot (a b : List ℝ) : ℝ := (List.zipWith (· * ·) a b).sum

/-- Spec-side vector sum. -/
def vadd (a b : List ℝ) : List ℝ := List.zipWith (· + ·) a b

/-- Spec-side scalar multiple. -/
def vscale (c : ℝ) (a : List ℝ) : List ℝ := a.map (c * ·)

end LaPoet

namespace LaPoet

lemma range_map_getD (f : ℝ → ℝ → ℝ) :
    ∀ (l m : List ℝ), m.length = l.length →
      (List.range l.length).map (fun i => f (l.getD i 0) (m.getD i 0)) =
        List.zipWith f l m
  | [], [], _ => rfl
  | [], _ :: _, h => by simp at h
  | a :: as, m, h => by
    cases m with
    | nil => simp at h
    | cons b bs =>
      simp only [List.length_cons, List.range_succ_eq_map, List.map_cons,
        List.map_map, List.getD_cons_zero, List.zipWith_cons_cons]
      refine congrArg (f a b :: ·) ?_
      have hbs : bs.length = as.length := by simpa using h
      rw [show ((fun i => f ((a :: as).getD i 0) ((b :: bs).getD i 0)) ∘ Nat.succ)
          = fun i => f (as.getD i 0) (bs.getD i 0) by
        funext i
        simp [List.getD_cons_succ]]
      exact range_map_getD f as bs hbs

lemma foldl_add_eq_sum (g : ℕ → ℝ) :
    ∀ (l : List ℕ) (a : ℝ), l.foldl (fun s i => s + g i) a = a + (l.map g).sum
  | [], a => by simp
  | i :: is, a => by
    simp only [List.foldl_cons, List.map_cons, List.sum_cons]
    rw [foldl_add_eq_sum g is (a + g i)]
    ring

lemma dotJS_eq_vdot (phi w : List ℝ) (h : phi.length = w.length) :
    TDValueEstimator.dotJS phi w = vdot w phi := by
  rw [TDValueEstimator.dotJS, foldl_add_eq_sum, zero_add,
    range_map_getD (fun a b => a * b) phi w h.symm, vdot]
  exact congrArg List.sum
    (List.zipWith_comm_of_comm (fun a b : ℝ => a * b) (fun a b => mul_comm a b) phi w)

lemma extractFeatures_length (est : TDValueEstimator) (s : Option PoeticState) :
    (TDValueEstimator.extractFeatures est s).length = est.weights.length := by
  cases s with
  | none => simp [TDValueEstimator.extractFeatures]
  | some st =>
    simp only [TDValueEstimator.extractFeatures, List.length_take,
      List.length_append, List.length_replicate]
    omega

end LaPoet

namespace LaPoet

/-- C4: `TDValueEstimator.update` performs exactly the TD(λ) update with
accumulating traces: with `δ = reward + (done ? 0 : γ·(w·φ(nextState))) - w·φ(state)`
it sets `e' = γλe + φ(state)`, then `w' = w + αδe'`, and when `done` resets
the eligibility to the all-zero vector (the weight update still uses the
fresh trace `e'`). -/
theorem td_update_exact (est : TDValueEstimator)
    (h : est.eligibility.length = est.weights.length)
    (state nextState : Option PoeticState) (reward : ℝ) (done : Bool) :
    (TDValueEstimator.update est state reward nextState done).eligibility =
      (if done then List.replicate est.weights.length 0
       else vadd (vscale (est.gamma * est.lambda) est.eligibility)
         (TDValueEstimator.extractFeatures est state)) ∧
    (TDValueEstimator.update est state reward nextState done).weights =
      vadd est.weights (vscale (est.alpha *
        (reward +
          (if done then 0
           else est.gamma *
             vdot est.weights (TDValueEstimator.extractFeatures est nextState)) -
         vdot est.weights (TDValueEstimator.extractFeatures est state)))
        (vadd (vscale (est.gamma * est.lambda) est.eligibility)
          (TDValueEstimator.extractFeatures est state))) := by
  have hphi := extractFeatures_length est state
  have hphiN := extractFeatures_length est nextState
  have helig : (List.range est.eligibility.length).map
      (fun i => est.gamma * est.lambda * est.eligibility.getD i 0 +
        (TDValueEstimator.extractFeatures est state).getD i 0) =
      vadd (vscale (est.gamma * est.lambda) est.eligibility)
        (TDValueEstimator.extractFeatures est state) := by
    rw [range_map_getD (fun a b => est.gamma * est.lambda * a + b)
      est.eligibility _ (hphi.trans h.symm)]
    simp only [vadd, vscale, List.zipWith_map_left]
  have heliglen : ((List.range est.eligibility.length).map
      (fun i => est.gamma * est.lambda * est.eligibility.getD i 0 +
        (TDValueEstimator.extractFeatures est state).getD i 0)).length =
      est.weights.length := by
    simp [h]
  have hwts : ∀ (A : ℝ) (e' : List ℝ), e'.length = est.weights.length →
      (List.range est.weights.length).map
        (fun i => est.weights.getD i 0 + A * e'.getD i 0) =
        vadd est.weights (vscale A e') := by
    intro A e' he'
    rw [range_map_getD (fun a b => a + A * b) est.weights e' he']
    simp only [vadd, vscale, List.zipWith_map_right]
  cases done with
  | false =>
    simp only [TDValueEstimator.update, Bool.false_eq_true, if_false]
    constructor
    · exact helig
    · rw [dotJS_eq_vdot _ _ hphi, dotJS_eq_vdot _ _ hphiN,
        hwts _ _ heliglen, helig]
  | true =>
    simp only [TDValueEstimator.update, if_true]
    constructor
    · rw [heliglen]
    · rw [dotJS_eq_vdot _ _ hphi, hwts _ _ heliglen, helig]

end LaPoet

namespace LaPoet

/-- Concrete estimator used by the C4 witness. -/
noncomputable def estW : TDValueEstimator := ⟨[1, 2], 1/2, 1/4, 1/8, [3, 4]⟩

/-- Concrete poetic state used by the C4 witness. -/
noncomputable def stateW : PoeticState := ⟨[[1, 1]], 1, 0, 1, 2, 0⟩

/-- C4 witness: `td_update_exact` at a concrete estimator and state. -/
theorem td_update_exact_witness :
    (TDValueEstimator.update estW (some stateW) 5 none false).eligibility =
      vadd (vscale (estW.gamma * estW.lambda) estW.eligibility)
        (TDValueEstimator.extractFeatures estW (some stateW)) ∧
    (TDValueEstimator.update estW (some stateW) 5 none false).weights =
      vadd estW.weights (vscale (estW.alpha *
        (5 + estW.gamma * vdot estW.weights (TDValueEstimator.extractFeatures estW none) -
         vdot estW.weights (TDValueEstimator.extractFeatures estW (some stateW))))
        (vadd (vscale (estW.gamma * estW.lambda) estW.eligibility)
          (TDValueEstimator.extractFeatures estW (some stateW)))) := by
  have hmain := td_update_exact estW (by rfl) (some stateW) none 5 false
  simpa using hmain

end LaPoet

namespace LaPoet

/-! ## Rete constraint engine (`ReteEngine`, App.jsx 296-333; rules 499-522)

Fact sets are finite JS objects with four known keys; a key can be absent
(JS `undefined`, modelled `none`) or hold a string, `null`, a number or an
array of strings.  The rhyme-part function of the linguistic collaborator
(`this.ule.analyze(w).rhymePart`) is a parameter `rp`, as the spec treats it
as a pure external function. -/

inductive FactKey where
  | lastWord | rhymeTarget | syllableCount | history
  deriving DecidableEq

inductive FactVal where
  | str (s : String)
  | jsNull
  | num (n : ℤ)
  | strList (l : List String)
  deriving DecidableEq

/-- A production rule: name, (key, test) conditions, action. -/
structure ReteRule where
  name : String
  conditions : List (FactKey × (FactVal → Bool))
  action : (FactKey → Option FactVal) → Bool

/-- `ReteEngine.evaluate(facts)`: rules whose conditions all hold; a missing
fact key (`fact !== undefined`) fails the condition, a present `null` does
not. -/
def ReteEngine.evaluate (rules : List ReteRule)
    (facts : FactKey → Option FactVal) : List ReteRule :=
  rules.filter fun rule => rule.conditions.all fun c =>
    match facts c.1 with
    | some v => c.2 v
    | none => false

/-- The `rhymeCheck` rule: conditions `lastWord` is a non-empty string and
`rhymeTarget` is a string (`typeof t === 'string'`; `null` fails); the
action returns `true` for a falsy rhyme target and otherwise compares the
rhyme parts of the two words.  (The fallback `true` branches are unreachable
for rules selected by `evaluate`, whose conditions pin both facts to
strings.) -/
def rhymeCheckRule (rp : String → String) : ReteRule where
  name := "rhymeCheck"
  conditions :=
    [ (.lastWord, fun v => match v with
        | .str s => decide (0 < s.length)
        | _ => false)
    , (.rhymeTarget, fun v => match v with
        | .str _ => true
        | _ => false) ]
  action := fun facts =>
    match facts .rhymeTarget with
    | some (.str t) =>
      if t = "" then true
      else
        match facts .lastWord with
        | some (.str w) => rp w == rp t
        | _ => true
    | _ => true

/-- The `syllableLimit` rule (8–10 syllable window): its action is the
constant `() => true`. -/
def syllableLimitRule : ReteRule where
  name := "syllableLimit"
  conditions :=
    [ (.syllableCount, fun v => match v with
        | .num n => decide (n ≤ 10)
        | _ => false)
    , (.syllableCount, fun v => match v with
        | .num n => decide (8 ≤ n)
        | _ => false) ]
  action := fun _ => true

/-- The `avoidRepetition` rule: its action is the constant `() => true`. -/
def avoidRepetitionRule : ReteRule where
  name := "avoidRepetition"
  conditions :=
    [ (.lastWord, fun _ => true)
    , (.history, fun v => match v with
        | .strList h => decide (h.length < 3) ||
            ((h.drop (h.length - 3)).dropLast.all fun word =>
              word != ((h.drop (h.length - 1)).headD ""))
        | _ => false) ]
  action := fun _ => true

/-- The three rules registered by `_initializeReteRules`, in order. -/
def reteRules (rp : String → String) : List ReteRule :=
  [rhymeCheckRule rp, syllableLimitRule, avoidRepetitionRule]

/-- The rollback trigger of `generateLine` (App.jsx 952):
`this.rete.evaluate(facts).filter(r => !r.action(facts))`. -/
def violationsOf (rp : String → String) (facts : FactKey → Option FactVal) :
    List ReteRule :=
  (ReteEngine.evaluate (reteRules rp) facts).filter fun r => ! r.action facts

/-- C10: only `rhymeCheck` can trigger the post-commit rollback: any rule in
the violation set is `rhymeCheck`, with a string rhyme target that is
non-empty and a string last word whose rhyme part differs from the target's.
In particular `syllableLimit` (the 8–10 window) and `avoidRepetition` never
roll back a token, since their actions constantly return `true`. -/
theorem rollback_only_rhymeCheck (rp : String → String)
    (facts : FactKey → Option FactVal) (r : ReteRule)
    (hr : r ∈ violationsOf rp facts) :
    r.name = "rhymeCheck" ∧
    ∃ t w, facts .rhymeTarget = some (.str t) ∧ t ≠ "" ∧
      facts .lastWord = some (.str w) ∧ rp w ≠ rp t := by
  simp only [violationsOf, ReteEngine.evaluate, reteRules, List.mem_filter,
    List.mem_cons, List.not_mem_nil, or_false] at hr
  obtain ⟨⟨hmem, hconds⟩, hact⟩ := hr
  rcases hmem with h1 | h1 | h1
  · subst h1
    refine ⟨rfl, ?_⟩
    simp only [rhymeCheckRule, List.all_cons, List.all_nil, Bool.and_true,
      Bool.and_eq_true] at hconds hact
    obtain ⟨hw, ht⟩ := hconds
    cases hLW : facts FactKey.lastWord with
    | none => rw [hLW] at hw; exact absurd hw (by simp)
    | some vw =>
      cases hRT : facts FactKey.rhymeTarget with
      | none => rw [hRT] at ht; exact absurd ht (by simp)
      | some vt =>
        rw [hLW] at hw
        rw [hRT] at ht
        cases vw with
        | str w =>
          cases vt with
          | str t =>
            refine ⟨t, w, rfl, ?_, rfl, ?_⟩ <;>
            · rw [hRT, hLW] at hact
              by_cases hte : t = "" <;> simp [hte] at hact ⊢
              try exact hact
          | jsNull => simp at ht
          | num _ => simp at ht
          | strList _ => simp at ht
        | jsNull => simp at hw
        | num _ => simp at hw
        | strList _ => simp at hw
  · subst h1
    exact absurd hact (by simp [syllableLimitRule])
  · subst h1
    exact absurd hact (by simp [avoidRepetitionRule])

end LaPoet

namespace LaPoet

/-- Concrete fact set for the C10 witness: a committed word "ab", an active
rhyme target "cd", nine syllables, short history. -/
def factsW : FactKey → Option FactVal := fun k =>
  match k with
  | .lastWord => some (.str "ab")
  | .rhymeTarget => some (.str "cd")
  | .syllableCount => some (.num 9)
  | .history => some (.strList ["ab"])

lemma violationsOf_factsW : violationsOf id factsW = [rhymeCheckRule id] := by
  rfl

/-- C10 witness: `rollback_only_rhymeCheck` at the identity rhyme-part
function and the concrete fact set `factsW`, where the rhyme comparison
fails ("ab" vs "cd"). -/
theorem rollback_only_rhymeCheck_witness :
    (rhymeCheckRule id).name = "rhymeCheck" ∧
    ∃ t w, factsW .rhymeTarget = some (.str t) ∧ t ≠ "" ∧
      factsW .lastWord = some (.str w) ∧ id w ≠ id t :=
  rollback_only_rhymeCheck id factsW (rhymeCheckRule id)
    (by rw [violationsOf_factsW]; exact List.mem_singleton_self _)

end LaPoet

namespace LaPoet

/-! ## Checkpoints (`AGTuneEngine.saveCheckpoint` / `loadCheckpoint`,
App.jsx 697-787)

Engine-state numbers are modelled as rationals: save/load only copy and
coerce them (`Number.isFinite(v) ? v : fill`), never compute, so `ℚ` is an
exact stand-in for the finite doubles of a live engine.  A checkpoint-side
number is `Option ℚ` (`none` = absent or non-finite).  A field that may be
absent (`undefined`) is an `Option`; an entry of the `embeddings` /
`emotionalSpace` lists is either a `[key, value]` pair or a non-iterable
value, whose destructuring `([k, v]) => ...` throws a TypeError mid-load. -/

structure KernelPCAState where
  nComponents : ℕ
  degree : ℕ
  eigenvectors : List (List ℚ)
  eigenvalues : List ℚ
  X_fit : List (List ℚ)
  deriving DecidableEq

structure ValueEstimatorState where
  weights : List ℚ
  alpha : ℚ
  gamma : ℚ
  lambda : ℚ
  eligibility : List ℚ
  deriving DecidableEq

structure EngineState where
  kpca : KernelPCAState
  valueEstimator : ValueEstimatorState
  vocabulary : List String
  embeddings : List (String × List ℚ)
  emotionalSpace : List (String × List ℚ)
  rngState : List ℚ
  rngIndex1 : ℚ
  rngIndex2 : ℚ
  lastCorpusSignature : Option String
  isTrained : Bool
  deriving DecidableEq

/-- A checkpoint-side JS number: finite rational or `none` (non-finite /
absent element). -/
abbrev CkNum := Option ℚ

structure CkptKpca where
  nComponents : Option ℕ
  degree : Option ℕ
  eigenvectors : Option (List (Option (List CkNum)))
  eigenvalues : Option (List CkNum)
  xFit : Option (List (Option (List CkNum)))
  deriving DecidableEq

structure CkptVE where
  weights : Option (List CkNum)
  alpha : Option ℚ
  gamma : Option ℚ
  lambda : Option ℚ
  eligibility : Option (List CkNum)
  deriving DecidableEq

/-- One element of a serialized `Map` entry list. -/
inductive CkptEntry where
  | pair (k : String) (v : Option (List CkNum)) : CkptEntry
  | notIterable : CkptEntry
  deriving DecidableEq

structure CkptRng where
  state : Option (List CkNum)
  index1 : Option ℚ
  index2 : Option ℚ
  deriving DecidableEq

structure CkptData where
  version : Option ℚ
  kpca : Option CkptKpca
  valueEstimator : Option CkptVE
  vocabulary : Option (List String)
  embeddings : Option (List CkptEntry)
  emotionalSpace : Option (List CkptEntry)
  rng : Option CkptRng
  lastCorpusSignature : Option String
  isTrained : Bool
  deriving DecidableEq

/-- `x || d` for an optional count (`undefined` and `0` are falsy). -/
def jsOrNat (x : Option ℕ) (d : ℕ) : ℕ :=
  match x with
  | some n => if n = 0 then d else n
  | none => d

/-- `_asNumberArray(arr, length, fill)` (App.jsx 546-557): iterate `i` below
`length ?? safe.length`, coercing each element with
`Number.isFinite(v) ? v : fill`. -/
def asNumberArray (arr : Option (List CkNum)) (len : Option ℕ) (fill : ℚ) :
    List ℚ :=
  let safe := arr.getD []
  let count := len.getD safe.length
  (List.range count).map fun i => ((safe.getD i none : CkNum).getD fill : ℚ)

/-- `_asNumberMatrix(mat)` (App.jsx 559-562). -/
def asNumberMatrix (mat : Option (List (Option (List CkNum)))) : List (List ℚ) :=
  (mat.getD []).map fun row => asNumberArray row none 0

/-- `new Set(array)`: insert elements in order, keeping the first
occurrence of each. -/
def jsSetDedup (l : List String) : List String :=
  l.foldl (fun acc s => if s ∈ acc then acc else acc ++ [s]) []

/-- One `Map.set(k, v)`: overwrite the value of an existing key in place,
otherwise append. -/
def jsMapInsert (acc : List (String × List ℚ)) (p : String × List ℚ) :
    List (String × List ℚ) :=
  if p.1 ∈ acc.map Prod.fst then
    acc.map fun q => if q.1 = p.1 then (q.1, p.2) else q
  else acc ++ [p]

/-- `new Map(entries)`: first-occurrence key positions, last value wins. -/
def jsMapDedup (l : List (String × List ℚ)) : List (String × List ℚ) :=
  l.foldl jsMapInsert []

/-- `entries.map(([k, v]) => [k, this._asNumberArray(v, len, 0)])`:
`none` when a non-iterable entry makes the destructuring throw. -/
def mapEntries (len : ℕ) : List CkptEntry → Option (List (String × List ℚ))
  | [] => some []
  | .notIterable :: _ => none
  | .pair k v :: rest =>
    (mapEntries len rest).map ((k, asNumberArray v (some len) 0) :: ·)

namespace AGTuneEngine

/-- `AGTuneEngine.saveCheckpoint()`: throws before training, otherwise a
version-1 record of every persisted field. -/
def saveCheckpoint (e : EngineState) : Except String CkptData :=
  if e.isTrained = false then
    .error "Train the model before saving a checkpoint"
  else
    .ok
      { version := some 1
      , kpca := some
          { nComponents := some e.kpca.nComponents
          , degree := some e.kpca.degree
          , eigenvectors := some (e.kpca.eigenvectors.map fun r => some (r.map some))
          , eigenvalues := some (e.kpca.eigenvalues.map some)
          , xFit := some (e.kpca.X_fit.map fun r => some (r.map some)) }
      , valueEstimator := some
          { weights := some (e.valueEstimator.weights.map some)
          , alpha := some e.valueEstimator.alpha
          , gamma := some e.valueEstimator.gamma
          , lambda := some e.valueEstimator.lambda
          , eligibility := some (e.valueEstimator.eligibility.map some) }
      , vocabulary := some e.vocabulary
      , embeddings := some (e.embeddings.map fun p => .pair p.1 (some (p.2.map some)))
      , emotionalSpace := some (e.emotionalSpace.map fun p => .pair p.1 (some (p.2.map some)))
      , rng := some
          { state := some (e.rngState.map some)
          , index1 := some e.rngIndex1
          , index2 := some e.rngIndex2 }
      , lastCorpusSignature := e.lastCorpusSignature
      , isTrained := e.isTrained }

/-- `AGTuneEngine.loadCheckpoint(data)`: validate the version, then replace
engine fields one by one in source order.  A malformed entry list throws a
TypeError part-way; the returned engine is the partially mutated one, paired
with the error (`none` on success). -/
def loadCheckpoint (e : EngineState) (d : CkptData) : EngineState × Option String :=
  if d.version ≠ some 1 then (e, some "Invalid checkpoint format")
  else
    let kpca1 : KernelPCAState :=
      { nComponents := jsOrNat (d.kpca.bind CkptKpca.nComponents) 8
      , degree := jsOrNat (d.kpca.bind CkptKpca.degree) 3
      , eigenvectors := asNumberMatrix (d.kpca.bind CkptKpca.eigenvectors)
      , eigenvalues := asNumberArray (d.kpca.bind CkptKpca.eigenvalues) none 0
      , X_fit := asNumberMatrix (d.kpca.bind CkptKpca.xFit) }
    let nF := jsOrNat ((d.valueEstimator.bind CkptVE.weights).map List.length) 16
    let ve1 : ValueEstimatorState :=
      { weights := asNumberArray (d.valueEstimator.bind CkptVE.weights) (some nF) 0
      , alpha := (d.valueEstimator.bind CkptVE.alpha).getD (1 / 100)
      , gamma := (d.valueEstimator.bind CkptVE.gamma).getD (19 / 20)
      , lambda := (d.valueEstimator.bind CkptVE.lambda).getD (4 / 5)
      , eligibility := asNumberArray (d.valueEstimator.bind CkptVE.eligibility) (some nF) 0 }
    let vocab1 := jsSetDedup (d.vocabulary.getD [])
    let e1 := { e with kpca := kpca1, valueEstimator := ve1, vocabulary := vocab1 }
    match mapEntries 64 (d.embeddings.getD []) with
    | none => (e1, some "TypeError: entry is not iterable")
    | some embs =>
      let e2 := { e1 with embeddings := jsMapDedup embs }
      match mapEntries kpca1.nComponents (d.emotionalSpace.getD []) with
      | none => (e2, some "TypeError: entry is not iterable")
      | some emos =>
        let e3 := { e2 with emotionalSpace := jsMapDedup emos }
        let e4 :=
          match d.rng with
          | none => e3
          | some r =>
            { e3 with
              rngState :=
                match r.state with
                | some st => st.map fun (x : CkNum) => x.getD 0
                | none => e3.rngState
              rngIndex1 := r.index1.getD e3.rngIndex1
              rngIndex2 := r.index2.getD e3.rngIndex2 }
        ({ e4 with
           lastCorpusSignature :=
             match d.lastCorpusSignature with
             | some s => if s = "" then none else some s
             | none => none
           isTrained := d.isTrained }, none)

end AGTuneEngine

end LaPoet

namespace LaPoet

/-- A small trained engine used by the C7 counterexample and C8 witness. -/
def engineC : EngineState :=
  { kpca := ⟨12, 3, [[1]], [2], [[1]]⟩
  , valueEstimator := ⟨[1, 2], 1/100, 19/20, 4/5, [0, 0]⟩
  , vocabulary := ["x"]
  , embeddings := [("x", [1])]
  , emotionalSpace := [("x", [1, 0, 0, 0, 0, 0, 0, 0, 0, 0, 0, 0])]
  , rngState := [7]
  , rngIndex1 := 0
  , rngIndex2 := 24
  , lastCorpusSignature := some "1:123"
  , isTrained := true }

/-- A version-1 checkpoint whose `embeddings` entry list contains a
non-iterable element: `new Map(entries.map(([k, v]) => ...))` throws on it. -/
def badCkpt : CkptData :=
  { version := some 1
  , kpca := none
  , valueEstimator := none
  , vocabulary := none
  , embeddings := some [.notIterable]
  , emotionalSpace := none
  , rng := none
  , lastCorpusSignature := none
  , isTrained := false }

/-- C7 counterexample: loading `badCkpt` (which does carry the expected
version tag) into `engineC` throws, yet the vocabulary has already been
replaced while the embeddings have not — the failed load leaves a partially
restored engine, contradicting atomicity. -/
theorem load_checkpoint_not_atomic :
    (AGTuneEngine.loadCheckpoint engineC badCkpt).2.isSome = true ∧
    (AGTuneEngine.loadCheckpoint engineC badCkpt).1.vocabulary ≠ engineC.vocabulary ∧
    (AGTuneEngine.loadCheckpoint engineC badCkpt).1.embeddings = engineC.embeddings := by
  decide

/-- C7 (amended): the version check alone is atomic: a record whose version
is not `1` is rejected with the `Invalid checkpoint format` error and no
engine field is modified.  (A version-1 record with a malformed entry list
can still throw after some fields were replaced, as the counterexample
shows.) -/
theorem load_checkpoint_bad_version_unchanged (e : EngineState) (d : CkptData)
    (h : d.version ≠ some 1) :
    AGTuneEngine.loadCheckpoint e d = (e, some "Invalid checkpoint format") := by
  rw [AGTuneEngine.loadCheckpoint, if_pos h]

/-- An unversioned checkpoint record for the C7 witness. -/
def unversionedCkpt : CkptData :=
  { version := none
  , kpca := none
  , valueEstimator := none
  , vocabulary := none
  , embeddings := none
  , emotionalSpace := none
  , rng := none
  , lastCorpusSignature := none
  , isTrained := false }

/-- C7 witness: `load_checkpoint_bad_version_unchanged` at `engineC` and the
unversioned record. -/
theorem load_checkpoint_bad_version_unchanged_witness :
    AGTuneEngine.loadCheckpoint engineC unversionedCkpt =
      (engineC, some "Invalid checkpoint format") :=
  load_checkpoint_bad_version_unchanged engineC unversionedCkpt (by decide)

end LaPoet

namespace LaPoet

lemma range_map_coerce (fill : ℚ) : ∀ (l : List ℚ),
    (List.range l.length).map
      (fun i => (((l.map some).getD i none : CkNum).getD fill : ℚ)) = l
  | [] => rfl
  | a :: as => by
    rw [List.length_cons, List.range_succ_eq_map, List.map_cons, List.map_map]
    congr 1
    rw [show ((fun i => ((((a :: as).map some).getD i none : CkNum).getD fill : ℚ))
        ∘ Nat.succ) = fun i => (((as.map some).getD i none : CkNum).getD fill : ℚ) from
      funext fun i => by simp [List.getD_cons_succ]]
    exact range_map_coerce fill as

lemma asNumberArray_id (l : List ℚ) (fill : ℚ) :
    asNumberArray (some (l.map some)) (some l.length) fill = l := by
  simp only [asNumberArray, Option.getD_some]
  exact range_map_coerce fill l

lemma foldl_set_insert : ∀ (l acc : List String), (acc ++ l).Nodup →
    l.foldl (fun acc s => if s ∈ acc then acc else acc ++ [s]) acc = acc ++ l
  | [], acc, _ => by simp
  | s :: rest, acc, h => by
    have hs : s ∉ acc := by
      intro hmem
      rw [List.nodup_append] at h
      exact h.2.2 hmem (by simp)
    simp only [List.foldl_cons, if_neg hs]
    rw [foldl_set_insert rest (acc ++ [s]) (by simpa [List.append_assoc] using h)]
    simp

lemma jsSetDedup_nodup (l : List String) (h : l.Nodup) : jsSetDedup l = l := by
  have := foldl_set_insert l [] (by simpa using h)
  simpa [jsSetDedup] using this

lemma foldl_map_insert : ∀ (l acc : List (String × List ℚ)),
    ((acc ++ l).map Prod.fst).Nodup →
    l.foldl jsMapInsert acc = acc ++ l
  | [], acc, _ => by simp
  | p :: rest, acc, h => by
    have hp : p.1 ∉ acc.map Prod.fst := by
      intro hmem
      rw [List.map_append, List.nodup_append] at h
      exact h.2.2 hmem (by simp)
    simp only [List.foldl_cons, jsMapInsert, if_neg hp]
    rw [foldl_map_insert rest (acc ++ [p]) (by
      have hl : (acc ++ [p]) ++ rest = acc ++ p :: rest := by simp
      rw [hl]
      exact h)]
    simp

end LaPoet

namespace LaPoet

lemma jsMapDedup_nodup (l : List (String × List ℚ)) (h : (l.map Prod.fst).Nodup) :
    jsMapDedup l = l := by
  have := foldl_map_insert l [] (by simpa using h)
  simpa [jsMapDedup] using this

lemma mapEntries_map_pair (n : ℕ) : ∀ (l : List (String × List ℚ)),
    mapEntries n (l.map fun p => .pair p.1 (some (p.2.map some))) =
      some (l.map fun p => (p.1, asNumberArray (some (p.2.map some)) (some n) 0))
  | [] => rfl
  | p :: rest => by
    simp only [List.map_cons, mapEntries, mapEntries_map_pair n rest, Option.map_some]
    rfl

end LaPoet

namespace LaPoet

/-- C8: for a trained engine whose state satisfies the data-model invariants
of spec §3 (non-empty weight vector, `nComponents ≠ 0` components with
emotional vectors of exactly that length, duplicate-free vocabulary and
emotional-space keys), `loadCheckpoint(saveCheckpoint())` succeeds and
reproduces the Vocabulary, every EmotionalSpace vector (exact equality) and
the ValueEstimatorModel weight vector (exact equality), into any target
engine. -/
theorem checkpoint_roundtrip (e f : EngineState)
    (ht : e.isTrained = true)
    (hW : e.valueEstimator.weights ≠ [])
    (hk : e.kpca.nComponents ≠ 0)
    (hemo : ∀ p ∈ e.emotionalSpace, p.2.length = e.kpca.nComponents)
    (hvoc : e.vocabulary.Nodup)
    (hkeys : (e.emotionalSpace.map Prod.fst).Nodup) :
    ∃ d, AGTuneEngine.saveCheckpoint e = .ok d ∧
      (AGTuneEngine.loadCheckpoint f d).2 = none ∧
      (AGTuneEngine.loadCheckpoint f d).1.vocabulary = e.vocabulary ∧
      (AGTuneEngine.loadCheckpoint f d).1.emotionalSpace = e.emotionalSpace ∧
      (AGTuneEngine.loadCheckpoint f d).1.valueEstimator.weights =
        e.valueEstimator.weights := by
  refine ⟨_, by rw [AGTuneEngine.saveCheckpoint, if_neg (by simp [ht])], ?_, ?_, ?_, ?_⟩ <;>
    (simp only [AGTuneEngine.loadCheckpoint]
     rw [if_neg (by simp)]
     simp only [Option.getD_some, mapEntries_map_pair, Option.some_bind])
  · rw [jsSetDedup_nodup _ hvoc]
  · rw [show jsOrNat (some e.kpca.nComponents) 8 = e.kpca.nComponents from by
      simp [jsOrNat, hk]]
    have hpt : ∀ p ∈ e.emotionalSpace,
        (p.1, asNumberArray (some (p.2.map some)) (some e.kpca.nComponents) 0) = p := by
      intro p hp
      rw [← hemo p hp, asNumberArray_id]
    rw [List.map_congr_left hpt]
    rw [show (e.emotionalSpace.map fun a => a) = e.emotionalSpace from List.map_id e.emotionalSpace]
    exact jsMapDedup_nodup _ hkeys
  · rw [show jsOrNat ((some (e.valueEstimator.weights.map some)).map List.length) 16
        = e.valueEstimator.weights.length from by
      simp [jsOrNat, List.length_eq_zero, hW]]
    exact asNumberArray_id _ _

end LaPoet

namespace LaPoet

/-- A fresh untrained target engine for the C8 witness. -/
def engineF : EngineState :=
  { kpca := ⟨12, 3, [], [], []⟩
  , valueEstimator := ⟨[], 1/100, 19/20, 4/5, []⟩
  , vocabulary := []
  , embeddings := []
  , emotionalSpace := []
  , rngState := []
  , rngIndex1 := 0
  , rngIndex2 := 24
  , lastCorpusSignature := none
  , isTrained := false }

/-- C8 witness: `checkpoint_roundtrip` from the concrete trained `engineC`
into the fresh `engineF`. -/
theorem checkpoint_roundtrip_witness :
    ∃ d, AGTuneEngine.saveCheckpoint engineC = .ok d ∧
      (AGTuneEngine.loadCheckpoint engineF d).2 = none ∧
      (AGTuneEngine.loadCheckpoint engineF d).1.vocabulary = engineC.vocabulary ∧
      (AGTuneEngine.loadCheckpoint engineF d).1.emotionalSpace = engineC.emotionalSpace ∧
      (AGTuneEngine.loadCheckpoint engineF d).1.valueEstimator.weights =
        engineC.valueEstimator.weights :=
  checkpoint_roundtrip engineC engineF rfl (by decide) (by decide) (by decide)
    (by decide) (by decide)

end LaPoet
